import Mathlib

/-!
Verification of the budget projection engine of `student-budget-visualizer`
(`src/engine/projection.ts`, types in `src/engine/types.ts`).

Modelling choices:
* JS numbers are modelled as exact rationals (`ℚ`); `Math.round x` is
  modelled as `⌊x + 1/2⌋`, which is its round-half-toward-positive-infinity
  behaviour on the reals.
* A JS `Date` normalised by `startOfDay` is modelled as its epoch-day number
  (an `Int`, day 0 = 1970-01-01).  ISO date strings (`format` with pattern `yyyy-MM-dd`, `parseISO`) are in bijection with epoch days, so one-time
  rule dates and snapshot dates are also epoch days.
* The date-fns helpers `addDays`, `addMonths`, `differenceInCalendarDays`,
  `getDate`, `isWeekend` are embedded below on epoch days, using the standard
  civil-from-days / days-from-civil conversion for the proleptic Gregorian
  calendar (the arithmetic performed by the JS `Date` object).
-/

namespace SBV

/-- Proleptic Gregorian leap-year test. -/
def isLeap (y : Int) : Bool :=
  (y % 4 == 0 && y % 100 != 0) || y % 400 == 0

/-- Number of days in month `m` (1–12) of year `y`. -/
def daysInMonth (y : Int) (m : Nat) : Nat :=
  if m = 2 then (if isLeap y then 29 else 28)
  else if m = 4 ∨ m = 6 ∨ m = 9 ∨ m = 11 then 30
  else 31

/-- Epoch day → (year, month 1–12, day 1–31), proleptic Gregorian calendar
(the conversion the JS `Date` object performs). -/
def civilFromDays (z : Int) : Int × Nat × Nat :=
  let z' := z + 719468
  let era := z'.fdiv 146097
  let doe := (z' - era * 146097).toNat
  let yoe := (doe - doe / 1460 + doe / 36524 - doe / 146096) / 365
  let doy := doe - (365 * yoe + yoe / 4 - yoe / 100)
  let mp := (5 * doy + 2) / 153
  let d := doy - (153 * mp + 2) / 5 + 1
  let m := if mp < 10 then mp + 3 else mp - 9
  let y := (yoe : Int) + era * 400
  (if m ≤ 2 then y + 1 else y, m, d)

/-- Civil (year, month 1–12, day 1–31) → epoch day, proleptic Gregorian calendar. -/
def daysFromCivil (y : Int) (m d : Nat) : Int :=
  let y' := if m ≤ 2 then y - 1 else y
  let era := y'.fdiv 400
  let yoe := (y' - era * 400).toNat
  let mp := if 2 < m then m - 3 else m + 9
  let doy := (153 * mp + 2) / 5 + d - 1
  let doe := yoe * 365 + yoe / 4 - yoe / 100 + doy
  era * 146097 + (doe : Int) - 719468

/-- date-fns `getDate`: the day-of-month (1–31) of an epoch day. -/
def getDate (z : Int) : Nat := (civilFromDays z).2.2

/-- date-fns `isWeekend`: epoch day 0 (1970-01-01) was a Thursday, so the JS
day-of-week (0 = Sunday … 6 = Saturday) of epoch day `z` is `(z+4) % 7`. -/
def isWeekend (z : Int) : Bool :=
  (z + 4) % 7 == 0 || (z + 4) % 7 == 6

/-- date-fns `addMonths`: shift the civil month, clamping the day-of-month to
the last day of the target month when it would overflow. -/
def addMonths (z : Int) (n : Int) : Int :=
  let c := civilFromDays z
  let months : Int := c.1 * 12 + ((c.2.1 : Int) - 1) + n
  let y' := months.fdiv 12
  let m' := (months - y' * 12).toNat + 1
  daysFromCivil y' m' (min c.2.2 (daysInMonth y' m'))

-- Sanity checks of the calendar model.
example : civilFromDays 0 = (1970, 1, 1) := by decide
example : daysFromCivil 1970 1 1 = 0 := by decide
example : civilFromDays 20000 = (2024, 10, 4) := by decide
example : daysFromCivil 2024 10 4 = 20000 := by decide
example : addMonths 0 1 = 31 := by decide
example : getDate 31 = 1 := by decide
example : isWeekend 2 = true := by decide   -- 1970-01-03, a Saturday
example : isWeekend 4 = false := by decide  -- 1970-01-05, a Monday
-- 2024-01-31 + 1 month clamps to 2024-02-29 (leap year).
example : civilFromDays (addMonths (daysFromCivil 2024 1 31) 1) = (2024, 2, 29) := by
  decide

/-- Pay frequency (`src/engine/types.ts`, `PayFrequency`). -/
inductive PayFrequency
  | weekly
  | biweekly
  | monthly
deriving DecidableEq, Repr, Inhabited

/-- A recurring income rule (`src/engine/types.ts`, `RecurringIncome`).
`startDate` and `endDate` are the epoch days of the parsed ISO strings. -/
structure RecurringIncome where
  label : String
  hoursPerWeek : ℚ
  hourlyRate : ℚ
  frequency : PayFrequency
  startDate : Int
  endDate : Option Int
  enabled : Option Bool
deriving DecidableEq, Repr, Inhabited

/-- A one-time income (`src/engine/types.ts`, `OneTimeIncome`). -/
structure OneTimeIncome where
  label : String
  amount : ℚ
  date : Int
  enabled : Option Bool
deriving DecidableEq, Repr, Inhabited

/-- A recurring monthly expense (`src/engine/types.ts`, `RecurringExpense`). -/
structure RecurringExpense where
  label : String
  amount : ℚ
  dayOfMonth : Nat
  enabled : Option Bool
deriving DecidableEq, Repr, Inhabited

/-- A one-time expense (`src/engine/types.ts`, `OneTimeExpense`). -/
structure OneTimeExpense where
  label : String
  amount : ℚ
  date : Int
  enabled : Option Bool
deriving DecidableEq, Repr, Inhabited

/-- Food budget block (`src/engine/types.ts`, `FoodBudget`). -/
structure FoodBudget where
  enabled : Bool
  weekdayBreakfast : ℚ
  weekdayLunch : ℚ
  weekdayDinner : ℚ
  weekdaySnacks : ℚ
  weekendDailyTotal : ℚ
deriving DecidableEq, Repr, Inhabited

/-- Transport / commute block (`src/engine/types.ts`, `TransportConfig`). -/
structure TransportConfig where
  enabled : Bool
  autoEnabled : Bool
  autoWeekdayMiles : ℚ
  autoWeekendMiles : ℚ
  autoMpg : ℚ
  autoFuelCostPerGallon : ℚ
  publicEnabled : Bool
  publicWeeklyCost : ℚ
deriving DecidableEq, Repr, Inhabited

/-- Top-level budget configuration (`src/engine/types.ts`, `BudgetConfig`). -/
structure BudgetConfig where
  initialBalance : ℚ
  recurringIncomes : List RecurringIncome
  oneTimeIncomes : List OneTimeIncome
  recurringExpenses : List RecurringExpense
  oneTimeExpenses : List OneTimeExpense
  foodBudget : FoodBudget
  transportConfig : TransportConfig
  projectionMonths : Nat
deriving DecidableEq, Repr, Inhabited

/-- Event kind of a `DailyEvent`. -/
inductive EventType
  | income
  | expense
deriving DecidableEq, Repr, Inhabited

/-- A structured event recorded on a snapshot (`src/engine/types.ts`,
`DailyEvent`).  The source leaves `isOneTime` unset (`undefined`) on
recurring matches and sets it to `true` on one-time matches, hence the
`Option Bool`. -/
structure DailyEvent where
  label : String
  amount : ℚ
  type : EventType
  isOneTime : Option Bool
deriving DecidableEq, Repr, Inhabited

/-- One simulated day (`src/engine/types.ts`, `DailySnapshot`); `date` is the
epoch day of the formatted ISO string. -/
structure DailySnapshot where
  date : Int
  balance : ℚ
  incomeToday : ℚ
  expensesToday : ℚ
  events : List DailyEvent
deriving DecidableEq, Repr, Inhabited

/-- JS `Math.round` on exact rationals: round half toward positive infinity. -/
def mathRound (x : ℚ) : Int := ⌊x + 1 / 2⌋

/-- The rounding step of the engine, `Math.round(x * 100) / 100`
(`projection.ts` lines 148–150): round to 2 decimal places. -/
def round2 (x : ℚ) : ℚ := (mathRound (x * 100) : ℚ) / 100

/-- Gross pay of one paycheck (`projection.ts`, `paycheckAmount`). -/
def paycheckAmount (income : RecurringIncome) : ℚ :=
  match income.frequency with
  | .weekly => income.hoursPerWeek * income.hourlyRate
  | .biweekly => income.hoursPerWeek * income.hourlyRate * 2
  | .monthly => income.hoursPerWeek * income.hourlyRate * (52 / 12)

/-- Payday test (`projection.ts`, `isPayday`).  `differenceInCalendarDays`
of start-of-day dates is the difference of epoch days. -/
def isPayday (date : Int) (income : RecurringIncome) : Bool :=
  let daysDiff := date - income.startDate
  if daysDiff < 0 then false
  else if (match income.endDate with
           | some e => decide (e < date)
           | none => false) then false
  else match income.frequency with
    | .weekly => daysDiff % 7 == 0
    | .biweekly => daysDiff % 14 == 0
    | .monthly => getDate date == getDate income.startDate

/-- Auto-transit cost for one day (`projection.ts` lines 94–100): contributes
only when the auto sub-block is enabled and `autoMpg > 0`. -/
def autoCost (tc : TransportConfig) (weekend : Bool) : ℚ :=
  if tc.autoEnabled = true ∧ 0 < tc.autoMpg then
    let miles := if weekend then tc.autoWeekendMiles else tc.autoWeekdayMiles
    let gallons := miles / tc.autoMpg
    gallons * tc.autoFuelCostPerGallon
  else 0

/-- Public-transit cost for one day (`projection.ts` lines 101–104): the
weekly cost spread evenly across 7 days. -/
def publicCost (tc : TransportConfig) : ℚ :=
  if tc.publicEnabled = true then tc.publicWeeklyCost / 7 else 0

/-- Food cost for one day (`projection.ts` lines 80–90). -/
def foodCost (fb : FoodBudget) (weekend : Bool) : ℚ :=
  if fb.enabled = true then
    if weekend then fb.weekendDailyTotal
    else fb.weekdayBreakfast + fb.weekdayLunch + fb.weekdayDinner + fb.weekdaySnacks
  else 0

/-- The body of the simulation loop for a single day (`projection.ts` lines
70–142): returns `(incomeToday, expensesToday, events)`, with contributions
and event pushes in source order (food, transport, recurring income,
one-time income, recurring expenses, one-time expenses). -/
def stepDay (config : BudgetConfig) (date : Int) : ℚ × ℚ × List DailyEvent :=
  let dom := getDate date
  let weekend := isWeekend date
  let expenses0 : ℚ :=
    (0 : ℚ) + foodCost config.foodBudget weekend +
      (if config.transportConfig.enabled = true then
        autoCost config.transportConfig weekend + publicCost config.transportConfig
      else 0)
  let recInc := config.recurringIncomes.foldl
    (fun acc income =>
      if income.enabled = some false then acc
      else if isPayday date income then
        let amount := paycheckAmount income
        (acc.1 + amount,
         acc.2 ++ [⟨income.label ++ " paycheck", amount, EventType.income, none⟩])
      else acc)
    ((0 : ℚ), ([] : List DailyEvent))
  let allInc := config.oneTimeIncomes.foldl
    (fun acc oti =>
      if oti.enabled = some false then acc
      else if oti.date = date then
        (acc.1 + oti.amount,
         acc.2 ++ [⟨oti.label, oti.amount, EventType.income, some true⟩])
      else acc)
    recInc
  let recExp := config.recurringExpenses.foldl
    (fun acc expense =>
      if expense.enabled = some false then acc
      else if dom = expense.dayOfMonth then
        (acc.1 + expense.amount,
         acc.2 ++ [⟨expense.label, expense.amount, EventType.expense, none⟩])
      else acc)
    (expenses0, allInc.2)
  let allExp := config.oneTimeExpenses.foldl
    (fun acc ote =>
      if ote.enabled = some false then acc
      else if ote.date = date then
        (acc.1 + ote.amount,
         acc.2 ++ [⟨ote.label, ote.amount, EventType.expense, some true⟩])
      else acc)
    recExp
  (allInc.1, allExp.1, allExp.2)

/-- The simulation loop (`projection.ts` lines 69–153): `remaining` iterations
left, `i` the current day index, `balance` the carried (unrounded) running
balance.  Each day stores the rounded balance and day totals. -/
def projLoop (config : BudgetConfig) (today : Int) :
    Nat → Nat → ℚ → List DailySnapshot
  | 0, _, _ => []
  | remaining + 1, i, balance =>
    let date := today + (i : Int)
    let day := stepDay config date
    let newBalance := balance + day.1 - day.2.1
    { date := date
      balance := round2 newBalance
      incomeToday := round2 day.1
      expensesToday := round2 day.2.1
      events := day.2.2 } ::
      projLoop config today remaining (i + 1) newBalance

/-- The projection engine (`projection.ts`, `runProjection`).  The source
computes `today = startOfDay(new Date())` — a wall-clock read at entry; that
read is modelled here as the explicit input `today`.  The loop runs for
`i = 0 .. totalDays` inclusive, where
`totalDays = differenceInCalendarDays(addMonths(today, projectionMonths), today)`. -/
def runProjection (config : BudgetConfig) (today : Int) : List DailySnapshot :=
  projLoop config today
    ((addMonths today (config.projectionMonths : Int) - today) + 1).toNat
    0 config.initialBalance

/-- First snapshot with a negative balance (`projection.ts`, `findDangerDate`). -/
def findDangerDate (snapshots : List DailySnapshot) : Option DailySnapshot :=
  snapshots.find? (fun s => decide (s.balance < 0))

/-- Snapshot with the lowest balance (`projection.ts`, `findLowestBalance`):
JS `reduce` without an initial value starts from the first element. -/
def findLowestBalance (snapshots : List DailySnapshot) : Option DailySnapshot :=
  match snapshots with
  | [] => none
  | s :: rest =>
    some (rest.foldl (fun min s' => if s'.balance < min.balance then s' else min) s)

/-- Raw (unrounded) income total of day `j` of a run anchored at `t`. -/
def rawIncome (c : BudgetConfig) (t : Int) (j : ℕ) : ℚ :=
  (stepDay c (t + (j : Int))).1

/-- Raw (unrounded) expense total of day `j` of a run anchored at `t`. -/
def rawExpenses (c : BudgetConfig) (t : Int) (j : ℕ) : ℚ :=
  (stepDay c (t + (j : Int))).2.1

/-- Raw net cash flow of day `j`. -/
def rawNet (c : BudgetConfig) (t : Int) (j : ℕ) : ℚ :=
  rawIncome c t j - rawExpenses c t j

/-- The unrounded running balance entering day `k`: `initialBalance` plus the
raw nets of days `0 … k-1` (so `rawBalance c t 0 = c.initialBalance`). -/
def rawBalance (c : BudgetConfig) (t : Int) (k : ℕ) : ℚ :=
  c.initialBalance + ((List.range k).map (rawNet c t)).sum

lemma projLoop_length (c : BudgetConfig) (t : Int) :
    ∀ n i b, (projLoop c t n i b).length = n := by
  intro n
  induction n with
  | zero => intro i b; rfl
  | succ m ih => intro i b; simp [projLoop, ih]

lemma runProjection_length (c : BudgetConfig) (t : Int) :
    (runProjection c t).length =
      ((addMonths t (c.projectionMonths : Int) - t) + 1).toNat := by
  simp [runProjection, projLoop_length]

lemma projLoop_getD (c : BudgetConfig) (t : Int) :
    ∀ n i k b, k < n →
      ((projLoop c t n i b).getD k default).date = t + ((i + k : ℕ) : Int) ∧
      ((projLoop c t n i b).getD k default).balance =
        round2 (b + ((List.range (k + 1)).map (fun j => rawNet c t (i + j))).sum) ∧
      ((projLoop c t n i b).getD k default).incomeToday =
        round2 (rawIncome c t (i + k)) ∧
      ((projLoop c t n i b).getD k default).expensesToday =
        round2 (rawExpenses c t (i + k)) ∧
      ((projLoop c t n i b).getD k default).events =
        (stepDay c (t + ((i + k : ℕ) : Int))).2.2 := by
  intro n
  induction n with
  | zero => intro i k b hk; omega
  | succ m ih =>
    intro i k b hk
    cases k with
    | zero =>
      refine ⟨by simp [projLoop], ?_, by simp [projLoop, rawIncome],
        by simp [projLoop, rawExpenses], by simp [projLoop]⟩
      simp only [projLoop, List.getD_cons_zero, Nat.zero_add]
      have h1 : List.range 1 = [0] := rfl
      rw [h1]
      simp only [List.map_cons, List.map_nil, List.sum_cons, List.sum_nil,
        Nat.add_zero, add_zero, rawNet, rawIncome, rawExpenses]
      congr 1
      ring
    | succ k' =>
      have hk' : k' < m := by omega
      obtain ⟨hd, hb, hi, he, hev⟩ := ih (i + 1) k'
        (b + (stepDay c (t + (i : Int))).1 - (stepDay c (t + (i : Int))).2.1) hk'
      have hidx : i + 1 + k' = i + (k' + 1) := by omega
      rw [hidx] at hd hi he hev
      simp only [projLoop, List.getD_cons_succ]
      refine ⟨hd, ?_, hi, he, hev⟩
      rw [hb]
      congr 1
      conv_rhs => rw [List.range_succ_eq_map]
      rw [List.map_cons, List.map_map, List.sum_cons]
      have hfun : ((fun j => rawNet c t (i + j)) ∘ Nat.succ) =
          (fun j => rawNet c t (i + 1 + j)) := by
        funext j
        simp only [Function.comp]
        congr 1
        omega
      rw [hfun]
      simp only [Nat.add_zero, rawNet, rawIncome, rawExpenses]
      ring

lemma runProjection_getD (c : BudgetConfig) (t : Int) (k : ℕ)
    (hk : k < (runProjection c t).length) :
    ((runProjection c t).getD k default).date = t + (k : Int) ∧
    ((runProjection c t).getD k default).balance = round2 (rawBalance c t (k + 1)) ∧
    ((runProjection c t).getD k default).incomeToday = round2 (rawIncome c t k) ∧
    ((runProjection c t).getD k default).expensesToday = round2 (rawExpenses c t k) ∧
    ((runProjection c t).getD k default).events = (stepDay c (t + (k : Int))).2.2 := by
  rw [runProjection_length] at hk
  obtain ⟨hd, hb, hi, he, hev⟩ := projLoop_getD c t _ 0 k c.initialBalance hk
  simp only [Nat.zero_add] at hd hb hi he hev
  exact ⟨hd, hb, hi, he, hev⟩

lemma round2_eq_of (x : ℚ) (m : ℤ) (h1 : (m : ℚ) ≤ x * 100 + 1 / 2)
    (h2 : x * 100 + 1 / 2 < (m : ℚ) + 1) : round2 x = (m : ℚ) / 100 := by
  rw [round2, mathRound]
  have hf : ⌊x * 100 + 1 / 2⌋ = m := Int.floor_eq_iff.mpr ⟨h1, h2⟩
  rw [hf]

lemma projLoop_congr (c c' : BudgetConfig) (t : Int)
    (hstep : ∀ d, stepDay c d = stepDay c' d) :
    ∀ n i b, projLoop c t n i b = projLoop c' t n i b := by
  intro n
  induction n with
  | zero => intro i b; rfl
  | succ m ih => intro i b; simp only [projLoop, hstep, ih]

/-- C10: the running balance carried from one day to the next is never
rounded.  The stored `balance` of day `k` is `round2` applied to
`initialBalance` plus the exact, unrounded sum of the raw daily nets of days
`0 … k` (`rawBalance c t (k+1)` unfolds to exactly that sum), while the
stored `incomeToday`/`expensesToday` are rounded copies of the raw day
totals that never feed back into later balances. -/
theorem balance_unrounded_carry (c : BudgetConfig) (t : Int) (k : ℕ)
    (hk : k < (runProjection c t).length) :
    ((runProjection c t).getD k default).balance = round2 (rawBalance c t (k + 1)) ∧
    ((runProjection c t).getD k default).incomeToday = round2 (rawIncome c t k) ∧
    ((runProjection c t).getD k default).expensesToday = round2 (rawExpenses c t k) := by
  obtain ⟨-, hb, hi, he, -⟩ := runProjection_getD c t k hk
  exact ⟨hb, hi, he⟩

/-- C1 (amended): the stored balance of day `k` satisfies the recurrence
`balance[k] = round2(rawBalance[k-1] + rawIncome[k] - rawExpenses[k])` over
the **unrounded** running balance and the **unrounded** day totals (with the
balance before day 0 equal to `initialBalance`).  The recurrence over the
rounded stored fields claimed by the spec does not hold (see the
counterexample). -/
theorem balance_raw_recurrence (c : BudgetConfig) (t : Int) (k : ℕ)
    (hk : k < (runProjection c t).length) :
    ((runProjection c t).getD k default).balance =
      round2 (rawBalance c t k + rawIncome c t k - rawExpenses c t k) := by
  obtain ⟨-, hb, -, -, -⟩ := runProjection_getD c t k hk
  rw [hb]
  congr 1
  rw [rawBalance, rawBalance, List.range_succ, List.map_append, List.sum_append]
  simp only [List.map_cons, List.map_nil, List.sum_cons, List.sum_nil, rawNet]
  ring

/-- C2: the projection emits exactly one snapshot per calendar day, in
ascending order with no gaps (`date` of snapshot `k` is `today + k` days),
starting at `today` and ending exactly at `today + projectionMonths` calendar
months.  The hypothesis `h` (the horizon end does not precede the anchor) is
a fact of Gregorian month arithmetic for every real date and nonnegative
month count; it is discharged by computation at any given anchor. -/
theorem projection_calendar_coverage (c : BudgetConfig) (t : Int)
    (_hm : 1 ≤ c.projectionMonths)
    (h : t ≤ addMonths t (c.projectionMonths : Int)) :
    (runProjection c t).length
        = (addMonths t (c.projectionMonths : Int) - t).toNat + 1 ∧
    (∀ k, k < (runProjection c t).length →
        ((runProjection c t).getD k default).date = t + (k : Int)) ∧
    ((runProjection c t).getD 0 default).date = t ∧
    ((runProjection c t).getD ((runProjection c t).length - 1) default).date
        = addMonths t (c.projectionMonths : Int) := by
  have hlen := runProjection_length c t
  have hnn : 0 ≤ addMonths t (c.projectionMonths : Int) - t := by omega
  refine ⟨by omega, ?_, ?_, ?_⟩
  · intro k hk
    exact (runProjection_getD c t k hk).1
  · have h0 : 0 < (runProjection c t).length := by omega
    have hd := (runProjection_getD c t 0 h0).1
    simpa using hd
  · have hk : (runProjection c t).length - 1 < (runProjection c t).length := by omega
    have hd := (runProjection_getD c t ((runProjection c t).length - 1) hk).1
    rw [hd]
    have hlast : (runProjection c t).length - 1
        = (addMonths t (c.projectionMonths : Int) - t).toNat := by omega
    rw [hlast]
    omega

/-- C4 (amended): the engine rounds with JS `Math.round`, which rounds a
value whose cent fraction is exactly one half toward **positive infinity**
(`round2 x = (n+1)/100` whenever `x·100 = n + 1/2`): away from zero for
positive values but **toward** zero for negative ones, not
round-half-away-from-zero as the spec claims. -/
theorem round2_half_up (x : ℚ) (n : ℤ) (h : x * 100 = (n : ℚ) + 1 / 2) :
    round2 x = ((n + 1 : ℤ) : ℚ) / 100 := by
  rw [round2, mathRound, h]
  have hcast : (n : ℚ) + 1 / 2 + 1 / 2 = ((n + 1 : ℤ) : ℚ) := by
    push_cast
    ring
  rw [hcast, Int.floor_intCast]

/-- C5 (amended): modelling the wall-clock read `startOfDay(new Date())`
performed inside `runProjection` as the explicit input `today`, the engine is
a pure function of `(config, today)`: two invocations with identical config
and identical wall-clock day produce identical snapshot sequences.  (The
source does **not** take the anchor as a parameter — see the
counterexample for the wall-clock dependence.) -/
theorem engine_determinism (c₁ c₂ : BudgetConfig) (t₁ t₂ : Int)
    (hc : c₁ = c₂) (ht : t₁ = t₂) :
    runProjection c₁ t₁ = runProjection c₂ t₂ := by
  rw [hc, ht]

/-- C3: `isPayday` holds exactly when the calendar-day difference from the
`startDate` of the rule is nonnegative, the date is not strictly after the
`endDate` of the rule (when present), and the frequency test holds: weekly iff
`daysDiff % 7 = 0`, biweekly iff `daysDiff % 14 = 0`, monthly iff the
day-of-month equals the day-of-month of the start date exactly (no clamping for
short months). -/
theorem isPayday_characterization (date : Int) (income : RecurringIncome) :
    isPayday date income = true ↔
      (0 ≤ date - income.startDate ∧
       (match income.endDate with
        | some e => date ≤ e
        | none => True) ∧
       (match income.frequency with
        | PayFrequency.weekly => (date - income.startDate) % 7 = 0
        | PayFrequency.biweekly => (date - income.startDate) % 14 = 0
        | PayFrequency.monthly => getDate date = getDate income.startDate)) := by
  simp only [isPayday]
  cases hE : income.endDate with
  | none =>
    cases hF : income.frequency <;>
      · simp only []
        split_ifs with h1 h2
        · simp
          omega
        · simp at h2
        · simp
          omega
  | some e =>
    cases hF : income.frequency <;>
      · simp only []
        split_ifs with h1 h2
        · simp
          omega
        · simp only [decide_eq_true_eq] at h2
          simp
          omega
        · simp only [decide_eq_true_eq] at h2
          simp
          omega

/-- C8: with transport tracking on and the auto sub-block enabled, a zero or
negative `autoMpg` makes the auto component contribute exactly 0 every
simulated day — the whole run equals the run with the auto sub-block turned
off, and no division error can occur (the guarded branch is never taken) —
while for `autoMpg > 0` the auto component is
`(miles / mpg) · fuelCostPerGallon` with weekday or weekend miles chosen by
the date. -/
theorem auto_mpg_guard (c : BudgetConfig) (t : Int)
    (_he : c.transportConfig.enabled = true)
    (_ha : c.transportConfig.autoEnabled = true) :
    (c.transportConfig.autoMpg ≤ 0 →
      (∀ w, autoCost c.transportConfig w = 0) ∧
      runProjection c t =
        runProjection
          { c with transportConfig := { c.transportConfig with autoEnabled := false } } t) ∧
    (0 < c.transportConfig.autoMpg →
      ∀ w, autoCost c.transportConfig w =
        ((if w then c.transportConfig.autoWeekendMiles
          else c.transportConfig.autoWeekdayMiles) / c.transportConfig.autoMpg) *
          c.transportConfig.autoFuelCostPerGallon) := by
  constructor
  · intro hle
    have hA : ∀ w, autoCost c.transportConfig w = 0 := by
      intro w
      rw [autoCost, if_neg]
      rintro ⟨-, hpos⟩
      exact absurd hpos (not_lt.mpr hle)
    refine ⟨hA, ?_⟩
    have hB : ∀ w,
        autoCost { c.transportConfig with autoEnabled := false } w = 0 := by
      intro w
      rw [autoCost, if_neg]
      rintro ⟨hab, -⟩
      simp at hab
    have hP : publicCost { c.transportConfig with autoEnabled := false } =
        publicCost c.transportConfig := by
      simp [publicCost]
    have hstep : ∀ d, stepDay c d =
        stepDay { c with transportConfig := { c.transportConfig with autoEnabled := false } } d := by
      intro d
      simp only [stepDay, hA, hB, hP]
    rw [runProjection, runProjection]
    exact projLoop_congr _ _ t hstep _ _ _
  · intro hpos w
    rw [autoCost, if_pos ⟨_ha, hpos⟩]

/-- C6: `findDangerDate` returns `none` exactly when no snapshot has a
negative balance, and when it returns a snapshot, that snapshot is negative
and is the **earliest** one in sequence order (every snapshot before it is
nonnegative) — not the most negative one. -/
theorem findDangerDate_spec (l : List DailySnapshot) :
    (findDangerDate l = none ↔ ∀ s ∈ l, 0 ≤ s.balance) ∧
    (∀ m, findDangerDate l = some m →
      m.balance < 0 ∧ ∃ k, k < l.length ∧ l.getD k default = m ∧
        ∀ j, j < k → 0 ≤ (l.getD j default).balance) := by
  induction l with
  | nil =>
    constructor
    · simp [findDangerDate]
    · intro m hm
      simp [findDangerDate] at hm
  | cons s rest ih =>
    obtain ⟨ih1, ih2⟩ := ih
    by_cases hs : s.balance < 0
    · have hfind : findDangerDate (s :: rest) = some s := by
        simp [findDangerDate, List.find?_cons, hs]
      constructor
      · rw [hfind]
        simp only [reduceCtorEq, false_iff]
        intro hall
        exact absurd (hall s (by simp)) (not_le.mpr hs)
      · intro m hm
        rw [hfind] at hm
        obtain rfl : s = m := by injection hm
        exact ⟨hs, 0, by simp, by simp, by omega⟩
    · have hfind : findDangerDate (s :: rest) = findDangerDate rest := by
        simp [findDangerDate, List.find?_cons, hs]
      have hs' : 0 ≤ s.balance := le_of_not_lt hs
      constructor
      · rw [hfind, ih1]
        constructor
        · intro hall s' hs'mem
          rcases List.mem_cons.mp hs'mem with rfl | hmem
          · exact hs'
          · exact hall s' hmem
        · intro hall s' hmem
          exact hall s' (List.mem_cons_of_mem _ hmem)
      · intro m hm
        rw [hfind] at hm
        obtain ⟨hneg, k, hk, hget, hbefore⟩ := ih2 m hm
        refine ⟨hneg, k + 1, by simpa using hk, by simpa using hget, ?_⟩
        intro j hj
        cases j with
        | zero => simpa using hs'
        | succ j' =>
          simp only [List.getD_cons_succ]
          exact hbefore j' (by omega)

lemma foldlMin_spec :
    ∀ (l : List DailySnapshot) (a : DailySnapshot),
      (l.foldl (fun min s' => if s'.balance < min.balance then s' else min) a = a ∧
        ∀ j, j < l.length → a.balance ≤ (l.getD j default).balance) ∨
      (∃ k, k < l.length ∧
        l.foldl (fun min s' => if s'.balance < min.balance then s' else min) a =
          l.getD k default ∧
        (l.getD k default).balance < a.balance ∧
        (∀ j, j < l.length → (l.getD k default).balance ≤ (l.getD j default).balance) ∧
        (∀ j, j < k → (l.getD k default).balance < (l.getD j default).balance)) := by
  intro l
  induction l with
  | nil =>
    intro a
    left
    exact ⟨rfl, by intro j hj; simp at hj⟩
  | cons y rest ih =>
    intro a
    by_cases hy : y.balance < a.balance
    · have hfold : (y :: rest).foldl
          (fun min s' => if s'.balance < min.balance then s' else min) a =
          rest.foldl (fun min s' => if s'.balance < min.balance then s' else min) y := by
        simp [if_pos hy]
      rcases ih y with ⟨heq, hall⟩ | ⟨k, hk, heq, hlt, hall, hbefore⟩
      · right
        refine ⟨0, by simp, by rw [hfold, heq]; simp, by simpa using hy, ?_, by omega⟩
        intro j hj
        cases j with
        | zero => simp
        | succ j' =>
          simp only [List.getD_cons_succ]
          exact hall j' (by simpa using hj)
      · right
        refine ⟨k + 1, by simpa using hk, ?_, ?_, ?_, ?_⟩
        · rw [hfold]
          simpa using heq
        · simp only [List.getD_cons_succ]
          exact lt_trans hlt hy
        · intro j hj
          cases j with
          | zero =>
            simp only [List.getD_cons_succ, List.getD_cons_zero]
            exact le_of_lt hlt
          | succ j' =>
            simp only [List.getD_cons_succ]
            exact hall j' (by simpa using hj)
        · intro j hj
          cases j with
          | zero =>
            simp only [List.getD_cons_succ, List.getD_cons_zero]
            exact hlt
          | succ j' =>
            simp only [List.getD_cons_succ]
            exact hbefore j' (by omega)
    · have ha : a.balance ≤ y.balance := le_of_not_lt hy
      have hfold : (y :: rest).foldl
          (fun min s' => if s'.balance < min.balance then s' else min) a =
          rest.foldl (fun min s' => if s'.balance < min.balance then s' else min) a := by
        simp [if_neg hy]
      rcases ih a with ⟨heq, hall⟩ | ⟨k, hk, heq, hlt, hall, hbefore⟩
      · left
        refine ⟨by rw [hfold, heq], ?_⟩
        intro j hj
        cases j with
        | zero => simpa using ha
        | succ j' =>
          simp only [List.getD_cons_succ]
          exact hall j' (by simpa using hj)
      · right
        refine ⟨k + 1, by simpa using hk, ?_, ?_, ?_, ?_⟩
        · rw [hfold]
          simpa using heq
        · simp only [List.getD_cons_succ]
          exact hlt
        · intro j hj
          cases j with
          | zero =>
            simp only [List.getD_cons_succ, List.getD_cons_zero]
            exact le_of_lt (lt_of_lt_of_le hlt ha)
          | succ j' =>
            simp only [List.getD_cons_succ]
            exact hall j' (by simpa using hj)
        · intro j hj
          cases j with
          | zero =>
            simp only [List.getD_cons_succ, List.getD_cons_zero]
            exact lt_of_lt_of_le hlt ha
          | succ j' =>
            simp only [List.getD_cons_succ]
            exact hbefore j' (by omega)

/-- C7: `findLowestBalance` returns `none` exactly for the empty sequence;
on a nonempty sequence it returns a snapshot of globally minimal balance, and
on exact ties the **first** occurrence (every earlier snapshot has a strictly
greater balance, matching the strict `<` scan of the source). -/
theorem findLowestBalance_spec (l : List DailySnapshot) :
    (findLowestBalance l = none ↔ l = []) ∧
    (∀ m, findLowestBalance l = some m →
      ∃ k, k < l.length ∧ l.getD k default = m ∧
        (∀ j, j < l.length → m.balance ≤ (l.getD j default).balance) ∧
        (∀ j, j < k → m.balance < (l.getD j default).balance)) := by
  cases l with
  | nil => simp [findLowestBalance]
  | cons s rest =>
    constructor
    · simp [findLowestBalance]
    · intro m hm
      simp only [findLowestBalance, Option.some.injEq] at hm
      rcases foldlMin_spec rest s with ⟨heq, hall⟩ | ⟨k, hk, heq, hlt, hall, hbefore⟩
      · obtain rfl : s = m := by rw [← hm, heq]
        refine ⟨0, by simp, by simp, ?_, by omega⟩
        intro j hj
        cases j with
        | zero => simp
        | succ j' =>
          simp only [List.getD_cons_succ]
          exact hall j' (by simpa using hj)
      · obtain rfl : rest.getD k default = m := by rw [← hm, heq]
        refine ⟨k + 1, by simpa using hk, by simp, ?_, ?_⟩
        · intro j hj
          cases j with
          | zero =>
            simp only [List.getD_cons_zero]
            exact le_of_lt hlt
          | succ j' =>
            simp only [List.getD_cons_succ]
            exact hall j' (by simpa using hj)
        · intro j hj
          cases j with
          | zero =>
            simp only [List.getD_cons_zero]
            exact hlt
          | succ j' =>
            simp only [List.getD_cons_succ]
            exact hbefore j' (by omega)

/-- A valid configuration with no rules at all: balance 0, one month. -/
def cfgEmpty : BudgetConfig :=
  { initialBalance := 0
    recurringIncomes := []
    oneTimeIncomes := []
    recurringExpenses := []
    oneTimeExpenses := []
    foodBudget := ⟨false, 0, 0, 0, 0, 0⟩
    transportConfig := ⟨false, false, 0, 0, 0, 0, false, 0⟩
    projectionMonths := 1 }

/-- A valid configuration whose only cash flow is a 1-per-week public
transit pass, producing the sub-cent daily cost 1/7. -/
def cfgPublicOnly : BudgetConfig :=
  { initialBalance := 0
    recurringIncomes := []
    oneTimeIncomes := []
    recurringExpenses := []
    oneTimeExpenses := []
    foodBudget := ⟨false, 0, 0, 0, 0, 0⟩
    transportConfig := ⟨true, false, 0, 0, 0, 0, true, 1⟩
    projectionMonths := 1 }

/-- A valid configuration with no cash flow and initial balance `-0.025`,
whose cent fraction is exactly one half. -/
def cfgNegHalf : BudgetConfig :=
  { initialBalance := -(1 / 40)
    recurringIncomes := []
    oneTimeIncomes := []
    recurringExpenses := []
    oneTimeExpenses := []
    foodBudget := ⟨false, 0, 0, 0, 0, 0⟩
    transportConfig := ⟨false, false, 0, 0, 0, 0, false, 0⟩
    projectionMonths := 1 }

lemma stepDay_cfgPublicOnly (d : Int) :
    stepDay cfgPublicOnly d = (0, 1 / 7, []) := by
  simp [stepDay, cfgPublicOnly, foodCost, autoCost, publicCost]

lemma rawNet_cfgPublicOnly (j : ℕ) : rawNet cfgPublicOnly 0 j = -(1 / 7) := by
  simp [rawNet, rawIncome, rawExpenses, stepDay_cfgPublicOnly]

lemma len_cfgPublicOnly : (runProjection cfgPublicOnly 0).length = 32 := by
  rw [runProjection_length]
  decide

/-- C1 counterexample: for the valid config whose only cash flow is a
1-per-week transit pass (1/7 per day), day 1 stores balance
`round2(-2/7) = -0.29`, but the recurrence of the spec over the **stored** rounded
fields predicts `round2(balance[0] + incomeToday[1] - expensesToday[1]) =
round2(-0.14 + 0 - 0.14) = -0.28`. -/
theorem stored_recurrence_counterexample :
    ((runProjection cfgPublicOnly 0).getD 0 default).balance = -(14 / 100) ∧
    ((runProjection cfgPublicOnly 0).getD 1 default).balance = -(29 / 100) ∧
    ((runProjection cfgPublicOnly 0).getD 1 default).incomeToday = 0 ∧
    ((runProjection cfgPublicOnly 0).getD 1 default).expensesToday = 14 / 100 ∧
    round2 (-(14 / 100) + 0 - 14 / 100) = -(28 / 100) ∧
    (-(29 / 100) : ℚ) ≠ -(28 / 100) := by
  have hk0 : 0 < (runProjection cfgPublicOnly 0).length := by
    rw [len_cfgPublicOnly]
    decide
  have hk1 : 1 < (runProjection cfgPublicOnly 0).length := by
    rw [len_cfgPublicOnly]
    decide
  have hr1 : List.range 1 = [0] := rfl
  have hr2 : List.range 2 = [0, 1] := rfl
  have hib : cfgPublicOnly.initialBalance = 0 := rfl
  have hbal1 : rawBalance cfgPublicOnly 0 1 = -(1 / 7) := by
    rw [rawBalance, hr1]
    simp only [List.map_cons, List.map_nil, List.sum_cons, List.sum_nil,
      rawNet_cfgPublicOnly, hib]
    norm_num
  have hbal2 : rawBalance cfgPublicOnly 0 2 = -(2 / 7) := by
    rw [rawBalance, hr2]
    simp only [List.map_cons, List.map_nil, List.sum_cons, List.sum_nil,
      rawNet_cfgPublicOnly, hib]
    norm_num
  obtain ⟨-, hb0, -, -, -⟩ := runProjection_getD cfgPublicOnly 0 0 hk0
  obtain ⟨-, hb1, hi1, he1, -⟩ := runProjection_getD cfgPublicOnly 0 1 hk1
  refine ⟨?_, ?_, ?_, ?_, ?_, by norm_num⟩
  · rw [hb0, hbal1]
    have := round2_eq_of (-(1 / 7)) (-14) (by norm_num) (by norm_num)
    rw [this]
    norm_num
  · rw [hb1, hbal2]
    have := round2_eq_of (-(2 / 7)) (-29) (by norm_num) (by norm_num)
    rw [this]
    norm_num
  · rw [hi1]
    have h0 : rawIncome cfgPublicOnly 0 1 = 0 := by
      simp [rawIncome, stepDay_cfgPublicOnly]
    rw [h0]
    have := round2_eq_of 0 0 (by norm_num) (by norm_num)
    rw [this]
    norm_num
  · rw [he1]
    have h0 : rawExpenses cfgPublicOnly 0 1 = 1 / 7 := by
      simp [rawExpenses, stepDay_cfgPublicOnly]
    rw [h0]
    have := round2_eq_of (1 / 7) 14 (by norm_num) (by norm_num)
    rw [this]
    norm_num
  · have := round2_eq_of (-(14 / 100) + 0 - 14 / 100) (-28) (by norm_num) (by norm_num)
    rw [this]
    norm_num

/-- C4 counterexample: with initial balance `-0.025` (cent fraction exactly
one half) and no cash flow, day 0 stores `round2(-0.025) = -0.02`: the
stored value moved **toward** zero, not away from it as
round-half-away-from-zero would require (`-0.03`). -/
theorem round_half_negative_counterexample :
    ((runProjection cfgNegHalf 0).getD 0 default).balance = -(2 / 100) ∧
    (-(2 / 100) : ℚ) ≠ -(3 / 100) ∧
    |(-(2 / 100) : ℚ)| < |(-(1 / 40) : ℚ)| := by
  have hk0 : 0 < (runProjection cfgNegHalf 0).length := by
    rw [runProjection_length]
    decide
  have hstep : ∀ d, stepDay cfgNegHalf d = (0, 0, []) := by
    intro d
    simp [stepDay, cfgNegHalf, foodCost, autoCost, publicCost]
  have hbal1 : rawBalance cfgNegHalf 0 1 = -(1 / 40) := by
    rw [rawBalance]
    have hr1 : List.range 1 = [0] := rfl
    rw [hr1]
    have hib : cfgNegHalf.initialBalance = -(1 / 40) := rfl
    simp only [List.map_cons, List.map_nil, List.sum_cons, List.sum_nil,
      rawNet, rawIncome, rawExpenses, hstep, hib]
    norm_num
  obtain ⟨-, hb0, -, -, -⟩ := runProjection_getD cfgNegHalf 0 0 hk0
  refine ⟨?_, by norm_num, by rw [abs_of_neg (by norm_num), abs_of_neg (by norm_num)]; norm_num⟩
  rw [hb0, hbal1]
  have := round2_eq_of (-(1 / 40)) (-2) (by norm_num) (by norm_num)
  rw [this]
  norm_num

/-- C5 counterexample: the source computes the anchor inside `runProjection`
via `startOfDay(new Date())` instead of taking it as a parameter; modelling
that wall-clock read as the input `today`, two invocations with the **same**
config but different wall-clock days produce different outputs, so the
output is not a function of the config alone. -/
theorem wall_clock_dependence :
    ((runProjection cfgEmpty 0).getD 0 default).date = 0 ∧
    ((runProjection cfgEmpty 1).getD 0 default).date = 1 ∧
    runProjection cfgEmpty 0 ≠ runProjection cfgEmpty 1 := by
  have hk0 : 0 < (runProjection cfgEmpty 0).length := by
    rw [runProjection_length]
    decide
  have hk1 : 0 < (runProjection cfgEmpty 1).length := by
    rw [runProjection_length]
    decide
  have hd0 : ((runProjection cfgEmpty 0).getD 0 default).date = 0 := by
    have := (runProjection_getD cfgEmpty 0 0 hk0).1
    simpa using this
  have hd1 : ((runProjection cfgEmpty 1).getD 0 default).date = 1 := by
    have := (runProjection_getD cfgEmpty 1 0 hk1).1
    simpa using this
  refine ⟨hd0, hd1, ?_⟩
  intro heq
  have h01 : ((runProjection cfgEmpty 0).getD 0 default).date =
      ((runProjection cfgEmpty 1).getD 0 default).date := by
    rw [heq]
  rw [hd0, hd1] at h01
  exact absurd h01 (by decide)

/-- A recurring biweekly income anchored at epoch day 0 with an end date. -/
def incomeBiweekly : RecurringIncome :=
  { label := "Job"
    hoursPerWeek := 20
    hourlyRate := 15
    frequency := PayFrequency.biweekly
    startDate := 0
    endDate := some 100
    enabled := none }

/-- A valid configuration with transport and the auto sub-block enabled but
`autoMpg = 0`. -/
def cfgAutoZero : BudgetConfig :=
  { initialBalance := 100
    recurringIncomes := []
    oneTimeIncomes := []
    recurringExpenses := []
    oneTimeExpenses := []
    foodBudget := ⟨false, 0, 0, 0, 0, 0⟩
    transportConfig := ⟨true, true, 10, 20, 0, 4, false, 0⟩
    projectionMonths := 1 }

/-- A snapshot sequence whose first negative balance is at index 1 and whose
most negative balance is at index 2. -/
def dangerList : List DailySnapshot :=
  [⟨0, 5, 0, 0, []⟩, ⟨1, -3, 0, 0, []⟩, ⟨2, -7, 0, 0, []⟩]

/-- A snapshot sequence with an exact tie for the minimum balance at
indices 1 and 2. -/
def lowList : List DailySnapshot :=
  [⟨0, 5, 0, 0, []⟩, ⟨1, 2, 0, 0, []⟩, ⟨2, 2, 0, 0, []⟩]

/-- Witness instantiating `balance_raw_recurrence` at a concrete run. -/
theorem balance_raw_recurrence_witness :
    1 < (runProjection cfgPublicOnly 0).length ∧
    ((runProjection cfgPublicOnly 0).getD 1 default).balance =
      round2 (rawBalance cfgPublicOnly 0 1 + rawIncome cfgPublicOnly 0 1 -
        rawExpenses cfgPublicOnly 0 1) := by
  have hk : 1 < (runProjection cfgPublicOnly 0).length := by
    rw [len_cfgPublicOnly]
    decide
  exact ⟨hk, balance_raw_recurrence cfgPublicOnly 0 1 hk⟩

/-- Witness instantiating `balance_unrounded_carry` at a concrete run. -/
theorem balance_unrounded_carry_witness :
    1 < (runProjection cfgPublicOnly 0).length ∧
    (((runProjection cfgPublicOnly 0).getD 1 default).balance =
        round2 (rawBalance cfgPublicOnly 0 2) ∧
      ((runProjection cfgPublicOnly 0).getD 1 default).incomeToday =
        round2 (rawIncome cfgPublicOnly 0 1) ∧
      ((runProjection cfgPublicOnly 0).getD 1 default).expensesToday =
        round2 (rawExpenses cfgPublicOnly 0 1)) := by
  have hk : 1 < (runProjection cfgPublicOnly 0).length := by
    rw [len_cfgPublicOnly]
    decide
  exact ⟨hk, balance_unrounded_carry cfgPublicOnly 0 1 hk⟩

/-- Witness instantiating `projection_calendar_coverage` at a concrete run:
anchored at 1970-01-01 with a one-month horizon (ending 1970-02-01). -/
theorem projection_calendar_coverage_witness :
    1 ≤ cfgEmpty.projectionMonths ∧
    (0 : Int) ≤ addMonths 0 (cfgEmpty.projectionMonths : Int) ∧
    ((runProjection cfgEmpty 0).length
        = (addMonths 0 (cfgEmpty.projectionMonths : Int) - 0).toNat + 1 ∧
      (∀ k, k < (runProjection cfgEmpty 0).length →
        ((runProjection cfgEmpty 0).getD k default).date = 0 + (k : Int)) ∧
      ((runProjection cfgEmpty 0).getD 0 default).date = 0 ∧
      ((runProjection cfgEmpty 0).getD
          ((runProjection cfgEmpty 0).length - 1) default).date
        = addMonths 0 (cfgEmpty.projectionMonths : Int)) :=
  ⟨by decide, by decide, projection_calendar_coverage cfgEmpty 0 (by decide) (by decide)⟩

/-- Witness instantiating `isPayday_characterization`: day 14 of a biweekly
rule anchored at day 0 is a payday. -/
theorem isPayday_characterization_witness :
    isPayday 14 incomeBiweekly = true :=
  (isPayday_characterization 14 incomeBiweekly).mpr
    ⟨by decide, (by decide : (14 : Int) ≤ 100),
      (by decide : (14 - incomeBiweekly.startDate) % 14 = 0)⟩

/-- Witness instantiating `round2_half_up`: `-0.025` rounds up to `-0.02`
(toward zero). -/
theorem round2_half_up_witness :
    ((-1 : ℚ) / 40) * 100 = ((-3 : ℤ) : ℚ) + 1 / 2 ∧
    round2 ((-1 : ℚ) / 40) = ((-3 + 1 : ℤ) : ℚ) / 100 :=
  ⟨by norm_num, round2_half_up ((-1 : ℚ) / 40) (-3) (by norm_num)⟩

/-- Witness instantiating `engine_determinism` at a concrete input. -/
theorem engine_determinism_witness :
    cfgEmpty = cfgEmpty ∧ (0 : Int) = 0 ∧
    runProjection cfgEmpty 0 = runProjection cfgEmpty 0 :=
  ⟨rfl, rfl, engine_determinism cfgEmpty cfgEmpty 0 0 rfl rfl⟩

/-- Witness instantiating `findDangerDate_spec`: on `dangerList` the snapshot
returned is the earliest negative one (index 1), not the most negative. -/
theorem findDangerDate_spec_witness :
    (⟨1, -3, 0, 0, []⟩ : DailySnapshot).balance < 0 ∧
    ∃ k, k < dangerList.length ∧
      dangerList.getD k default = ⟨1, -3, 0, 0, []⟩ ∧
      ∀ j, j < k → 0 ≤ (dangerList.getD j default).balance := by
  have hfind : findDangerDate dangerList = some ⟨1, -3, 0, 0, []⟩ := by
    rw [dangerList, findDangerDate]
    rw [List.find?_cons_of_neg, List.find?_cons_of_pos]
    · norm_num
    · norm_num
  exact (findDangerDate_spec dangerList).2 ⟨1, -3, 0, 0, []⟩ hfind

/-- Witness instantiating `findLowestBalance_spec`: on `lowList` (balances
5, 2, 2) the first of the two tied minima is returned. -/
theorem findLowestBalance_spec_witness :
    ∃ k, k < lowList.length ∧
      lowList.getD k default = ⟨1, 2, 0, 0, []⟩ ∧
      (∀ j, j < lowList.length →
        (⟨1, 2, 0, 0, []⟩ : DailySnapshot).balance ≤ (lowList.getD j default).balance) ∧
      (∀ j, j < k →
        (⟨1, 2, 0, 0, []⟩ : DailySnapshot).balance < (lowList.getD j default).balance) := by
  have hfind : findLowestBalance lowList = some ⟨1, 2, 0, 0, []⟩ := by
    rw [lowList, findLowestBalance]
    simp only [List.foldl_cons, List.foldl_nil]
    norm_num
  exact (findLowestBalance_spec lowList).2 ⟨1, 2, 0, 0, []⟩ hfind

/-- Witness instantiating `auto_mpg_guard` at a concrete config with
`autoMpg = 0`. -/
theorem auto_mpg_guard_witness :
    cfgAutoZero.transportConfig.enabled = true ∧
    cfgAutoZero.transportConfig.autoEnabled = true ∧
    ((cfgAutoZero.transportConfig.autoMpg ≤ 0 →
        (∀ w, autoCost cfgAutoZero.transportConfig w = 0) ∧
        runProjection cfgAutoZero 0 =
          runProjection
            { cfgAutoZero with
                transportConfig :=
                  { cfgAutoZero.transportConfig with autoEnabled := false } } 0) ∧
      (0 < cfgAutoZero.transportConfig.autoMpg →
        ∀ w, autoCost cfgAutoZero.transportConfig w =
          ((if w then cfgAutoZero.transportConfig.autoWeekendMiles
            else cfgAutoZero.transportConfig.autoWeekdayMiles) /
              cfgAutoZero.transportConfig.autoMpg) *
            cfgAutoZero.transportConfig.autoFuelCostPerGallon)) :=
  ⟨rfl, rfl, auto_mpg_guard cfgAutoZero 0 rfl rfl⟩

end SBV
